import Mathlib

/-!
Shallow embedding of the merge-request title grammar of
`src/main.rs` (winnow combinators), together with theorems settling the
behavioural claims about it.  Input is modelled as `List Char`; each
matcher consumes a prefix of the remaining input and either returns a
value with the rest of the input or an error value carrying the winnow
context (label and expectation) that the source attaches.
-/

namespace GitlabCiHelper

/-- Characters accepted by winnow's `space0`: the space and the tab. -/
def isSpaceTab (c : Char) : Bool := c == ' ' || c == '\t'

/-- Rust `char::is_ascii_alphanumeric`. -/
def is_ascii_alphanumeric (c : Char) : Bool :=
  ('A' ≤ c && c ≤ 'Z') || ('a' ≤ c && c ≤ 'z') || ('0' ≤ c && c ≤ '9')

/-- Rust `char::is_ascii`: code point at most 0x7F. -/
def is_ascii (c : Char) : Bool := c.toNat ≤ 127

/-- Rust `char::is_ascii_alphabetic`. -/
def is_ascii_alpha (c : Char) : Bool :=
  ('A' ≤ c && c ≤ 'Z') || ('a' ≤ c && c ≤ 'z')

/-- Source predicate `is_jira_id`: ASCII alphanumeric or a hyphen. -/
def is_jira_id (c : Char) : Bool := is_ascii_alphanumeric c || c == '-'

/-- Rust `u8::to_ascii_lowercase`, lifted to `Char` (winnow's `Caseless`
comparison folds ASCII case only, and the literals matched are pure
ASCII, so the byte-level comparison of the source coincides with this
character-level one). -/
def asciiLower (c : Char) : Char :=
  if 'A' ≤ c && c ≤ 'Z' then Char.ofNat (c.toNat + 32) else c

/-- Embedding of `literal(Caseless(lit))`: matches `lit` at the head of
the input up to ASCII case, returning the remaining input. -/
def caselessLit : List Char → List Char → Option (List Char)
  | [], input => some input
  | _ :: _, [] => none
  | l :: ls, c :: cs =>
    if asciiLower c = asciiLower l then caselessLit ls cs else none

/-- Source enum `Kind`. -/
inductive Kind where
  | Feature
  | Fix
deriving DecidableEq, Repr

/-- Source struct `MergeRequest` (the borrowed `str` slices become
character lists). -/
structure MergeRequest where
  kind : Kind
  jira_id : List Char
  title : List Char
deriving DecidableEq, Repr

/-- Winnow `StrContext`, restricted to the two constructors the source
uses. -/
inductive StrContext where
  | label (s : String)
  | expected (s : String)
deriving DecidableEq, Repr

/-- Winnow `ContextError`: the pushed contexts, in push order. -/
structure CtxError where
  context : List StrContext
deriving DecidableEq, Repr

/-- Error attached by `parse_kind`. -/
def kindErr : CtxError :=
  ⟨[StrContext.label "kind", StrContext.expected "fix or feat"]⟩

/-- Error attached by `parse_jira_id`. -/
def jiraErr : CtxError :=
  ⟨[StrContext.label "jira id", StrContext.expected "a valid jira id"]⟩

/-- Error attached by `parse_title`. -/
def titleErr : CtxError :=
  ⟨[StrContext.label "title", StrContext.expected "any valid title"]⟩

/-- Error produced by the implicit `eof` of winnow's `Parser::parse`
when input remains: a `ContextError` with no contexts. -/
def trailingErr : CtxError := ⟨[]⟩

/-- Tests whether the input starts with the given character (the
success condition of winnow's `literal` on a one-character literal). -/
def headIs (c : Char) : List Char → Bool
  | [] => false
  | x :: _ => x == c

/-- Tests whether the input starts with a character satisfying `p`. -/
def headSat (p : Char → Bool) : List Char → Bool
  | [] => false
  | x :: _ => p x

/-- Embedding of source `parse_kind`: an ordered alternation of the
caseless literals `fix`, `feat`, `feature` (in that order), labelled
`kind` / `fix or feat` on failure. -/
def parse_kind (input : List Char) : Except CtxError (Kind × List Char) :=
  match caselessLit ['f', 'i', 'x'] input with
  | some r => Except.ok (Kind.Fix, r)
  | none =>
    match caselessLit ['f', 'e', 'a', 't'] input with
    | some r => Except.ok (Kind.Feature, r)
    | none =>
      match caselessLit ['f', 'e', 'a', 't', 'u', 'r', 'e'] input with
      | some r => Except.ok (Kind.Feature, r)
      | none => Except.error kindErr

/-- Embedding of source `parse_jira_id`: `space0`, a literal opening
parenthesis, `space0`, a nonempty greedy run of `is_jira_id`
characters, `space0`, a literal closing parenthesis; returns the run.
Any failure yields the `jira id` / `a valid jira id` context. -/
def parse_jira_id (input : List Char) :
    Except CtxError (List Char × List Char) :=
  let r1 := input.dropWhile isSpaceTab
  if headIs '(' r1 then
    let r3 := r1.tail.dropWhile isSpaceTab
    let jid := r3.takeWhile is_jira_id
    let r4 := (r3.dropWhile is_jira_id).dropWhile isSpaceTab
    if jid = [] then Except.error jiraErr
    else if headIs ')' r4 then Except.ok (jid, r4.tail)
    else Except.error jiraErr
  else Except.error jiraErr

/-- Embedding of source `parse_title`: `space0`, a literal colon,
`space0`, a nonempty greedy run of ASCII characters, `space0`; returns
the run.  Because the space and the tab are ASCII, the greedy run
swallows any trailing whitespace and the final `space0` of the source's
`delimited` can never consume anything.  Failure yields the
`title` / `any valid title` context. -/
def parse_title (input : List Char) :
    Except CtxError (List Char × List Char) :=
  let r1 := input.dropWhile isSpaceTab
  if headIs ':' r1 then
    let r3 := r1.tail.dropWhile isSpaceTab
    let t := r3.takeWhile is_ascii
    if t = [] then Except.error titleErr
    else Except.ok (t, (r3.dropWhile is_ascii).dropWhile isSpaceTab)
  else Except.error titleErr

/-- Embedding of source `parse_merge_request`: the three matchers in
sequence, then `space0` (via `terminated`) and the end-of-input check
of winnow's `Parser::parse`. -/
def parse_merge_request (input : List Char) : Except CtxError MergeRequest :=
  match parse_kind input with
  | Except.error e => Except.error e
  | Except.ok (kind, r1) =>
    match parse_jira_id r1 with
    | Except.error e => Except.error e
    | Except.ok (jid, r2) =>
      match parse_title r2 with
      | Except.error e => Except.error e
      | Except.ok (title, r3) =>
        if r3.dropWhile isSpaceTab = [] then
          Except.ok ⟨kind, jid, title⟩
        else Except.error trailingErr

/-- Input remaining after the kind, once leading whitespace and the
opening parenthesis have been consumed. -/
def afterOpen (r : List Char) : List Char :=
  ((r.dropWhile isSpaceTab).tail).dropWhile isSpaceTab

/-- After the kind, the opening parenthesis is absent. -/
def missingOpenParen (r : List Char) : Prop :=
  headIs '(' (r.dropWhile isSpaceTab) = false

/-- After the kind, the parenthesized identifier body is empty. -/
def emptyIdBody (r : List Char) : Prop :=
  headIs '(' (r.dropWhile isSpaceTab) = true ∧
  (afterOpen r).takeWhile is_jira_id = []

/-- After the kind, the identifier run is nonempty but the closing
parenthesis is absent. -/
def missingCloseParen (r : List Char) : Prop :=
  headIs '(' (r.dropWhile isSpaceTab) = true ∧
  (afterOpen r).takeWhile is_jira_id ≠ [] ∧
  headIs ')' (((afterOpen r).dropWhile is_jira_id).dropWhile isSpaceTab) = false

/-- After the identifier, the colon is absent. -/
def missingColon (r : List Char) : Prop :=
  headIs ':' (r.dropWhile isSpaceTab) = false

/-- After the identifier, the colon is present but the title body is
empty. -/
def emptyTitleBody (r : List Char) : Prop :=
  headIs ':' (r.dropWhile isSpaceTab) = true ∧
  (((r.dropWhile isSpaceTab).tail).dropWhile isSpaceTab).takeWhile is_ascii = []

/-- Token text of a kind in canonical form.  `Feature` renders as
`feat`: it is the only spelling of that kind the alternation of
`parse_kind` can actually accept in full. -/
def kindToken : Kind → List Char
  | Kind.Fix => ['f', 'i', 'x']
  | Kind.Feature => ['f', 'e', 'a', 't']

/-- Canonicalized form of a parse result: the kind token, a space, the
parenthesized identifier, a colon, a space, the title. -/
def canonical (mr : MergeRequest) : List Char :=
  kindToken mr.kind ++ ' ' :: '(' :: (mr.jira_id ++ ')' :: ':' :: ' ' :: mr.title)

/-- Identifier matcher failure cases: whenever the opening parenthesis
is absent, the identifier body is empty, or the closing parenthesis is
absent, `parse_jira_id` yields the jira id error. -/
theorem parse_jira_id_err_of_cond (r : List Char)
    (h : missingOpenParen r ∨ emptyIdBody r ∨ missingCloseParen r) :
    parse_jira_id r = Except.error jiraErr := by
  rcases h with h | ⟨h1, h2⟩ | ⟨h1, h2, h3⟩
  · rw [missingOpenParen] at h
    simp [parse_jira_id, h]
  · rw [afterOpen] at h2
    simp [parse_jira_id, h1, h2]
  · rw [afterOpen] at h2 h3
    simp [parse_jira_id, h1, h2, h3]

/-- Title matcher failure cases: whenever the colon is absent or the
title body is empty, `parse_title` yields the title error. -/
theorem parse_title_err_of_cond (r : List Char)
    (h : missingColon r ∨ emptyTitleBody r) :
    parse_title r = Except.error titleErr := by
  rcases h with h | ⟨h1, h2⟩
  · rw [missingColon] at h
    simp [parse_title, h]
  · simp [parse_title, h1, h2]

/-- Claim C3: parsing the input with extra interior whitespace around
the identifier and after the colon (and none at the end) succeeds and
returns exactly kind Feature, identifier ABC-123 and title
"Fix a bug", the interior whitespace discarded. -/
theorem parse_example_interior_ws :
    parse_merge_request ("feat  (   ABC-123   ) :   Fix a bug".toList) =
      Except.ok ⟨Kind.Feature, "ABC-123".toList, "Fix a bug".toList⟩ := by
  rfl

/-- Claim C4: a stray closing parenthesis after the colon is absorbed
into the greedy ASCII title run rather than rejected. -/
theorem parse_example_stray_paren :
    parse_merge_request ("fix (ABC-1): title extra)".toList) =
      Except.ok ⟨Kind.Fix, "ABC-1".toList, "title extra)".toList⟩ := by
  rfl

/-- Claim C1 (evaluation at the failing input): on an input whose
leading kind token is the word Feature, the parse does not succeed and
does not consume the whole token: the alternation tries the caseless
literal feat first and it matches, leaving the letters ure before the
parenthesis, so the overall parse fails with the jira id error.  The
third alternative of `parse_kind` (the caseless literal feature) is
unreachable, since feat is one of its prefixes and is tried first. -/
theorem feature_kind_code_divergence :
    parse_merge_request ("Feature (AB-1): oops".toList) =
      Except.error jiraErr := by
  rfl

/-- Claim C2 (evaluation at the failing input): on a valid input with
trailing whitespace after the title body, the parse succeeds but the
returned title keeps that whitespace: the greedy ASCII run absorbs the
spaces, so the source's trailing `space0` matchers never trim them. -/
theorem title_trailing_ws_code_divergence :
    parse_merge_request ("fix(X-1): abc  ".toList) =
      Except.ok ⟨Kind.Fix, "X-1".toList, ['a', 'b', 'c', ' ', ' ']⟩ := by
  rfl

/-- Head of a list after dropping the characters satisfying `p` cannot
satisfy `p`. -/
theorem headSat_dropWhile (p : Char → Bool) (l : List Char) :
    headSat p (l.dropWhile p) = false := by
  induction l with
  | nil => rfl
  | cons c cs ih =>
    rw [List.dropWhile_cons]
    by_cases hc : p c = true
    · simpa [hc] using ih
    · simp only [Bool.not_eq_true] at hc
      simp [headSat, hc]

/-- Taking a prefix with `takeWhile` preserves the head predicate
failure. -/
theorem headSat_takeWhile (p q : Char → Bool) (l : List Char)
    (h : headSat q l = false) : headSat q (l.takeWhile p) = false := by
  cases l with
  | nil => rfl
  | cons c cs =>
    rw [List.takeWhile_cons]
    by_cases hc : p c = true
    · simpa [headSat, hc] using h
    · simp [headSat, hc]

/-- Inversion of a successful identifier match: the identifier is the
nonempty greedy run, and all of its characters satisfy `is_jira_id`. -/
theorem parse_jira_id_ok_shape (input jid rest : List Char)
    (h : parse_jira_id input = Except.ok (jid, rest)) :
    jid ≠ [] ∧ ∀ c ∈ jid, is_jira_id c = true := by
  simp only [parse_jira_id] at h
  split_ifs at h with h1 h2 h3
  simp only [Except.ok.injEq, Prod.mk.injEq] at h
  obtain ⟨ha, _⟩ := h
  subst ha
  exact ⟨h2, fun c hc => List.mem_takeWhile_imp hc⟩

/-- Inversion of a successful title match: the title is the nonempty
greedy ASCII run and does not begin with a space or a tab. -/
theorem parse_title_ok_shape (input t rest : List Char)
    (h : parse_title input = Except.ok (t, rest)) :
    t ≠ [] ∧ (∀ c ∈ t, is_ascii c = true) ∧ headSat isSpaceTab t = false := by
  simp only [parse_title] at h
  split_ifs at h with h1 h2
  simp only [Except.ok.injEq, Prod.mk.injEq] at h
  obtain ⟨ha, _⟩ := h
  subst ha
  refine ⟨h2, fun c hc => List.mem_takeWhile_imp hc, ?_⟩
  exact headSat_takeWhile is_ascii isSpaceTab _ (headSat_dropWhile isSpaceTab _)

/-- Inversion of a successful whole parse into the three matcher
successes and the end-of-input condition. -/
theorem parse_merge_request_ok_inv (input : List Char) (mr : MergeRequest)
    (h : parse_merge_request input = Except.ok mr) :
    ∃ r1 r2 r3, parse_kind input = Except.ok (mr.kind, r1) ∧
      parse_jira_id r1 = Except.ok (mr.jira_id, r2) ∧
      parse_title r2 = Except.ok (mr.title, r3) ∧
      r3.dropWhile isSpaceTab = [] := by
  cases hk : parse_kind input with
  | error e => simp [parse_merge_request, hk] at h
  | ok kr =>
    obtain ⟨k, r1⟩ := kr
    cases hj : parse_jira_id r1 with
    | error e => simp [parse_merge_request, hk, hj] at h
    | ok jr =>
      obtain ⟨jid, r2⟩ := jr
      cases ht : parse_title r2 with
      | error e => simp [parse_merge_request, hk, hj, ht] at h
      | ok tr =>
        obtain ⟨t, r3⟩ := tr
        by_cases he : r3.dropWhile isSpaceTab = []
        · simp only [parse_merge_request, hk, hj, ht, he, if_pos,
            Except.ok.injEq] at h
          subst h
          dsimp only
          exact ⟨r1, r2, r3, rfl, hj, ht, he⟩
        · simp [parse_merge_request, hk, hj, ht, he] at h

/-- Claim C5: whenever the kind matcher has succeeded and, in the
remaining input, the opening parenthesis is absent, the parenthesized
identifier body is empty, or the closing parenthesis is absent, the
whole parse returns the error labelled jira id with expectation
`a valid jira id`, and never a parsed result. -/
theorem parse_missing_identifier_fails (input r : List Char) (k : Kind)
    (hk : parse_kind input = Except.ok (k, r))
    (h : missingOpenParen r ∨ emptyIdBody r ∨ missingCloseParen r) :
    parse_merge_request input = Except.error jiraErr := by
  have hj := parse_jira_id_err_of_cond r h
  simp [parse_merge_request, hk, hj]

/-- Witness for claim C5 at the input with empty parentheses. -/
theorem parse_missing_identifier_fails_witness :
    parse_merge_request ("fix(): t".toList) = Except.error jiraErr :=
  parse_missing_identifier_fails ("fix(): t".toList) ("(): t".toList) Kind.Fix
    (by rfl)
    (Or.inr (Or.inl (by unfold emptyIdBody afterOpen; exact ⟨rfl, rfl⟩)))

/-- Claim C6: whenever the kind and identifier matchers have succeeded
and, in the remaining input, the colon is absent or the title body
after the colon is empty, the whole parse returns the error labelled
title with expectation `any valid title`, and never a parsed result. -/
theorem parse_missing_title_fails (input r1 jid r2 : List Char) (k : Kind)
    (hk : parse_kind input = Except.ok (k, r1))
    (hj : parse_jira_id r1 = Except.ok (jid, r2))
    (h : missingColon r2 ∨ emptyTitleBody r2) :
    parse_merge_request input = Except.error titleErr := by
  have ht := parse_title_err_of_cond r2 h
  simp [parse_merge_request, hk, hj, ht]

/-- Witness for claim C6 at the input with an empty title body. -/
theorem parse_missing_title_fails_witness :
    parse_merge_request ("fix (ABC-1):".toList) = Except.error titleErr :=
  parse_missing_title_fails ("fix (ABC-1):".toList) (" (ABC-1):".toList)
    ("ABC-1".toList) (":".toList) Kind.Fix (by rfl) (by rfl)
    (Or.inr (by unfold emptyTitleBody; exact ⟨rfl, rfl⟩))

/-- Inversion of a caseless literal match on a nonempty literal. -/
theorem caselessLit_cons_inv {a : Char} {as s r : List Char}
    (h : caselessLit (a :: as) s = some r) :
    ∃ c cs, s = c :: cs ∧ asciiLower c = asciiLower a ∧
      caselessLit as cs = some r := by
  cases s with
  | nil => exact Option.noConfusion h
  | cons c cs =>
    simp only [caselessLit] at h
    split_ifs at h with hc
    exact ⟨c, cs, rfl, hc, h⟩

/-- An input matching the caseless literal feat cannot match the
caseless literal fix: the second characters disagree. -/
theorem caselessLit_fix_of_feat {s r : List Char}
    (h : caselessLit ['f', 'e', 'a', 't'] s = some r) :
    caselessLit ['f', 'i', 'x'] s = none := by
  obtain ⟨c1, s1, rfl, h1, h⟩ := caselessLit_cons_inv h
  obtain ⟨c2, s2, rfl, h2, h⟩ := caselessLit_cons_inv h
  simp only [caselessLit]
  rw [h1, if_pos rfl, h2]
  have hne : asciiLower 'e' ≠ asciiLower 'i' := by decide
  rw [if_neg hne]

/-- An ASCII letter is neither a space nor a tab. -/
theorem alpha_not_space (c : Char) (h : is_ascii_alpha c = true) :
    isSpaceTab c = false := by
  rw [isSpaceTab]
  have h1 : c ≠ ' ' := by rintro rfl; exact absurd h (by decide)
  have h2 : c ≠ '\t' := by rintro rfl; exact absurd h (by decide)
  simp [h1, h2]

/-- An ASCII letter is not an opening parenthesis. -/
theorem alpha_not_open (c : Char) (h : is_ascii_alpha c = true) :
    (c == '(') = false := by
  have h1 : c ≠ '(' := by rintro rfl; exact absurd h (by decide)
  simp [h1]

/-- Claim C7: on every successful parse the identifier is nonempty and
made only of ASCII alphanumerics and hyphens, and the title is nonempty
and made only of ASCII characters. -/
theorem parse_success_invariant (input : List Char) (mr : MergeRequest)
    (h : parse_merge_request input = Except.ok mr) :
    mr.jira_id ≠ [] ∧ (∀ c ∈ mr.jira_id, is_jira_id c = true) ∧
      mr.title ≠ [] ∧ ∀ c ∈ mr.title, is_ascii c = true := by
  obtain ⟨r1, r2, r3, hk, hj, ht, he⟩ := parse_merge_request_ok_inv input mr h
  obtain ⟨hj1, hj2⟩ := parse_jira_id_ok_shape r1 mr.jira_id r2 hj
  obtain ⟨ht1, ht2, _⟩ := parse_title_ok_shape r2 mr.title r3 ht
  exact ⟨hj1, hj2, ht1, ht2⟩

/-- Witness for claim C7 at a concrete successful parse. -/
theorem parse_success_invariant_witness :
    ("XY-1".toList ≠ ([] : List Char)) ∧
      (∀ c ∈ "XY-1".toList, is_jira_id c = true) ∧
      ("no spaces".toList ≠ ([] : List Char)) ∧
      ∀ c ∈ "no spaces".toList, is_ascii c = true :=
  parse_success_invariant ("fix(XY-1):no spaces".toList)
    ⟨Kind.Fix, "XY-1".toList, "no spaces".toList⟩ (by rfl)

/-- Claim C9: the grammar accepts no leading whitespace before the kind
token: on the empty input and on every input starting with a space or a
tab, the parse fails with the error labelled kind carrying the
expectation `fix or feat`. -/
theorem parse_no_leading_ws (input : List Char)
    (h : input = [] ∨ headSat isSpaceTab input = true) :
    parse_merge_request input = Except.error kindErr := by
  rcases h with rfl | h
  · rfl
  · cases input with
    | nil => simp [headSat] at h
    | cons c cs =>
      rw [headSat, isSpaceTab] at h
      simp only [Bool.or_eq_true, beq_iff_eq] at h
      rcases h with rfl | rfl <;> rfl

/-- Witness for claim C9 at the empty input. -/
theorem parse_no_leading_ws_witness :
    parse_merge_request [] = Except.error kindErr :=
  parse_no_leading_ws [] (Or.inl rfl)

/-- Claim C10: the kind matcher enforces no token boundary.  On every
input beginning with a casing of fix or feat embedded in a longer word
(the next character is an ASCII letter), the kind matcher succeeds,
consuming only the literal, and the overall parse then fails with the
jira id error, not with the kind error. -/
theorem parse_kind_no_boundary (input r : List Char)
    (h : caselessLit ['f', 'i', 'x'] input = some r ∨
      caselessLit ['f', 'e', 'a', 't'] input = some r)
    (hl : headSat is_ascii_alpha r = true) :
    (∃ k, parse_kind input = Except.ok (k, r)) ∧
      parse_merge_request input = Except.error jiraErr := by
  have hk : ∃ k, parse_kind input = Except.ok (k, r) := by
    rcases h with h | h
    · exact ⟨Kind.Fix, by simp [parse_kind, h]⟩
    · have hfix := caselessLit_fix_of_feat h
      exact ⟨Kind.Feature, by simp [parse_kind, hfix, h]⟩
  obtain ⟨k, hk'⟩ := hk
  refine ⟨⟨k, hk'⟩, ?_⟩
  have hj : parse_jira_id r = Except.error jiraErr := by
    cases r with
    | nil => exact absurd hl (by simp [headSat])
    | cons c cs =>
      rw [headSat] at hl
      have hs := alpha_not_space c hl
      have ho := alpha_not_open c hl
      simp [parse_jira_id, List.dropWhile_cons, hs, headIs, ho]
  simp [parse_merge_request, hk', hj]

/-- Witness for claim C10 at the input whose leading word extends the
literal fix. -/
theorem parse_kind_no_boundary_witness :
    (∃ k, parse_kind ("fixture(AB-1): x".toList) =
      Except.ok (k, "ture(AB-1): x".toList)) ∧
      parse_merge_request ("fixture(AB-1): x".toList) =
        Except.error jiraErr :=
  parse_kind_no_boundary ("fixture(AB-1): x".toList)
    ("ture(AB-1): x".toList) (Or.inl (by rfl)) (by rfl)

/-- An identifier character is neither a space nor a tab. -/
theorem jira_not_space (c : Char) (h : is_jira_id c = true) :
    isSpaceTab c = false := by
  rw [isSpaceTab]
  have h1 : c ≠ ' ' := by rintro rfl; exact absurd h (by decide)
  have h2 : c ≠ '\t' := by rintro rfl; exact absurd h (by decide)
  simp [h1, h2]

/-- The kind matcher accepts its own canonical token and consumes
exactly it: fix yields `Fix` and feat yields `Feature`. -/
theorem parse_kind_token (k : Kind) (rest : List Char) :
    parse_kind (kindToken k ++ rest) = Except.ok (k, rest) := by
  cases k <;> rfl

/-- The identifier matcher accepts a space, the parenthesized
identifier, and leaves the rest, whenever the identifier is a nonempty
run of identifier characters. -/
theorem parse_jira_id_step (jid rest : List Char) (hne : jid ≠ [])
    (hall : ∀ x ∈ jid, is_jira_id x = true) :
    parse_jira_id (' ' :: '(' :: (jid ++ ')' :: rest)) =
      Except.ok (jid, rest) := by
  obtain ⟨c, cs, rfl⟩ := List.exists_cons_of_ne_nil hne
  have hc : is_jira_id c = true := hall c (by simp)
  have hcs : isSpaceTab c = false := jira_not_space c hc
  have e2 : ((c :: cs) ++ ')' :: rest).dropWhile isSpaceTab
      = (c :: cs) ++ ')' :: rest := by
    rw [List.cons_append, List.dropWhile_cons, hcs]
    simp
  have e3 : ((c :: cs) ++ ')' :: rest).takeWhile is_jira_id = c :: cs := by
    rw [List.takeWhile_append_of_pos hall,
      show (')' :: rest).takeWhile is_jira_id = [] from rfl,
      List.append_nil]
  have e4 : ((c :: cs) ++ ')' :: rest).dropWhile is_jira_id
      = ')' :: rest := by
    rw [List.dropWhile_append_of_pos hall]
    rfl
  have e1 : (' ' :: '(' :: ((c :: cs) ++ ')' :: rest)).dropWhile isSpaceTab
      = '(' :: ((c :: cs) ++ ')' :: rest) := rfl
  have e0 : headIs '(' ('(' :: ((c :: cs) ++ ')' :: rest)) = true := rfl
  have e5 : (')' :: rest).dropWhile isSpaceTab = ')' :: rest := rfl
  have e6 : headIs ')' (')' :: rest) = true := rfl
  simp only [parse_jira_id, e1, List.tail_cons, e2, e3, e4, e5]
  simp [e0, e6, hne]
  rfl

/-- The title matcher accepts a colon, a space, and the title body,
whenever the body is a nonempty all-ASCII run not starting with a space
or a tab, and consumes the whole input. -/
theorem parse_title_step (t : List Char) (hne : t ≠ [])
    (hall : ∀ x ∈ t, is_ascii x = true)
    (hh : headSat isSpaceTab t = false) :
    parse_title (':' :: ' ' :: t) = Except.ok (t, []) := by
  have e1 : t.dropWhile isSpaceTab = t := by
    cases t with
    | nil => rfl
    | cons c cs =>
      rw [headSat] at hh
      rw [List.dropWhile_cons, hh]
      simp
  have e2 : t.takeWhile is_ascii = t := List.takeWhile_eq_self_iff.mpr hall
  have e3 : t.dropWhile is_ascii = [] := List.dropWhile_eq_nil_iff.mpr hall
  simp only [parse_title,
    show (':' :: ' ' :: t).dropWhile isSpaceTab = ':' :: ' ' :: t from rfl]
  simp only [headIs, List.tail_cons,
    show (' ' :: t).dropWhile isSpaceTab = t.dropWhile isSpaceTab from rfl,
    e1, e2, e3]
  simp [hne]

/-- Claim C8: re-parsing the canonicalized rendering of any successful
parse result (the kind token, a space, the parenthesized identifier, a
colon, a space, the title) succeeds and yields the same result. -/
theorem parse_roundtrip (input : List Char) (mr : MergeRequest)
    (h : parse_merge_request input = Except.ok mr) :
    parse_merge_request (canonical mr) = Except.ok mr := by
  obtain ⟨r1, r2, r3, hk, hj, ht, he⟩ := parse_merge_request_ok_inv input mr h
  obtain ⟨hj1, hj2⟩ := parse_jira_id_ok_shape r1 mr.jira_id r2 hj
  obtain ⟨ht1, ht2, ht3⟩ := parse_title_ok_shape r2 mr.title r3 ht
  have hK : parse_kind (canonical mr) =
      Except.ok (mr.kind,
        ' ' :: '(' :: (mr.jira_id ++ ')' :: ':' :: ' ' :: mr.title)) := by
    rw [canonical]
    exact parse_kind_token mr.kind _
  have hJ : parse_jira_id
      (' ' :: '(' :: (mr.jira_id ++ ')' :: ':' :: ' ' :: mr.title)) =
      Except.ok (mr.jira_id, ':' :: ' ' :: mr.title) :=
    parse_jira_id_step mr.jira_id (':' :: ' ' :: mr.title) hj1 hj2
  have hT : parse_title (':' :: ' ' :: mr.title) =
      Except.ok (mr.title, []) :=
    parse_title_step mr.title ht1 ht2 ht3
  simp [parse_merge_request, hK, hJ, hT]

/-- Witness for claim C8 at a concrete successful parse. -/
theorem parse_roundtrip_witness :
    parse_merge_request
        (canonical ⟨Kind.Feature, "AB-1".toList, "oops".toList⟩) =
      Except.ok ⟨Kind.Feature, "AB-1".toList, "oops".toList⟩ :=
  parse_roundtrip ("feat (AB-1): oops".toList)
    ⟨Kind.Feature, "AB-1".toList, "oops".toList⟩ (by rfl)

end GitlabCiHelper
